import Mathlib

/-!
Verification of the portfolio optimizer (`src/portfolio_optimizer.py`):
a shallow embedding of its statistics pipeline, portfolio metrics,
objective functions, optimizer plumbing and frontier sampler, together
with theorems settling the spec claims.

Real arithmetic of the source (numpy floats) is modelled over `ℝ`
(with `Real.sqrt` for `np.sqrt`) where square roots occur, and over `ℚ`
for the purely rational pipelines, so concrete evaluations are decidable.
Where the source divides by zero (a case the spec's error taxonomy says
must raise), the model's field division by zero yields `0` whereas IEEE
floats yield `inf`/`NaN`; the theorems about those cases therefore state
that the function *returns normally* with a zero denominator, which is
the program fact at issue.
-/

namespace PortfolioOpt

/-- `np.sum(xs * ys)`: elementwise product, then sum. -/
def dotL (xs ys : List ℝ) : ℝ :=
  (List.zipWith (fun a b => a * b) xs ys).sum

/-- `np.dot(m, v)`: matrix-vector product, row by row. -/
def matvec (m : List (List ℝ)) (v : List ℝ) : List ℝ :=
  m.map (fun row => dotL row v)

/-- Embedding of `PortfolioOptimizer.portfolio_stats` (source lines 55-74):
`portfolio_return = np.sum(self.mean_returns * weights)`,
`portfolio_std = np.sqrt(np.dot(weights.T, np.dot(self.cov_matrix, weights)))`,
`sharpe_ratio = (portfolio_return - self.risk_free_rate) / portfolio_std`,
returned as a triple.  The function is total: the source has no
error path, every weight vector is accepted as-is. -/
noncomputable def portfolio_stats (mean_returns : List ℝ) (cov_matrix : List (List ℝ))
    (risk_free_rate : ℝ) (weights : List ℝ) : ℝ × ℝ × ℝ :=
  let portfolio_return := dotL mean_returns weights
  let portfolio_std := Real.sqrt (dotL weights (matvec cov_matrix weights))
  let sharpe := (portfolio_return - risk_free_rate) / portfolio_std
  (portfolio_return, portfolio_std, sharpe)

/-- Embedding of `PortfolioOptimizer.negative_sharpe` (source lines 76-78):
`return -self.portfolio_stats(weights)[2]`. -/
noncomputable def negative_sharpe (mean_returns : List ℝ) (cov_matrix : List (List ℝ))
    (risk_free_rate : ℝ) (weights : List ℝ) : ℝ :=
  -(portfolio_stats mean_returns cov_matrix risk_free_rate weights).2.2

/-- Embedding of `PortfolioOptimizer.portfolio_volatility` (source lines 80-82):
`return self.portfolio_stats(weights)[1]`. -/
noncomputable def portfolio_volatility (mean_returns : List ℝ) (cov_matrix : List (List ℝ))
    (risk_free_rate : ℝ) (weights : List ℝ) : ℝ :=
  (portfolio_stats mean_returns cov_matrix risk_free_rate weights).2.1

/-- Spec-side quadratic form, following the words `weights^T · covMatrix · weights`:
the sum over i of w_i * (row_i · w). -/
def quadForm (cov : List (List ℝ)) (w : List ℝ) : ℝ :=
  (List.zipWith (fun wi row => wi * dotL row w) w cov).sum

/-- Spec-side `PortfolioMetrics.evaluate`, written from the spec's formulas:
`return = weights · meanReturns`, `volatility = sqrt(weights^T · covMatrix · weights)`,
`sharpe = (return - riskFreeRate) / volatility`. -/
noncomputable def evaluate_metrics (weights meanReturns : List ℝ)
    (covMatrix : List (List ℝ)) (riskFreeRate : ℝ) : ℝ × ℝ × ℝ :=
  let r := dotL weights meanReturns
  let v := Real.sqrt (quadForm covMatrix weights)
  (r, v, (r - riskFreeRate) / v)

/-- First standard basis vector of a given length: the weight vector
`[1, 0, ..., 0]` that puts all weight on the first asset. -/
def e1 : ℕ → List ℝ
  | 0 => []
  | n + 1 => 1 :: List.replicate n 0

/-- A row survives pandas `dropna` exactly when every entry is present. -/
def seqOption : List (Option ℚ) → Option (List ℚ)
  | [] => some []
  | none :: _ => none
  | some a :: rest => (seqOption rest).map (fun l => a :: l)

/-- Pandas `DataFrame.dropna()`: keep only the complete rows. -/
def dropna (rows : List (List (Option ℚ))) : List (List ℚ) :=
  rows.filterMap seqOption

/-- Pandas `DataFrame.pct_change()` on a complete price table: the first row
becomes all-missing, and row t is `cur / prev - 1` entrywise. -/
def pct_change (prices : List (List ℚ)) : List (List (Option ℚ)) :=
  match prices with
  | [] => []
  | p0 :: _ =>
    (p0.map (fun _ => (none : Option ℚ))) ::
      List.zipWith (fun prev cur =>
        List.zipWith (fun a b => some (b / a - 1)) prev cur) prices prices.tail

/-- The columns of a rectangular periods-by-assets table: entry j of the
result is the series of asset j across periods (pandas computes `mean` and
`cov` per column). -/
def columns (rows : List (List ℚ)) : List (List ℚ) :=
  match rows with
  | [] => []
  | r0 :: _ => (List.range r0.length).map (fun j => rows.map (fun r => r.getD j 0))

/-- Pandas column mean: sum over the observed periods divided by their count. -/
def colMean (xs : List ℚ) : ℚ := xs.sum / (xs.length : ℚ)

/-- Pandas sample covariance of two aligned columns (`ddof = 1`): centered
cross products summed and divided by `n - 1`.  For `n = 1` the denominator is
zero — pandas produces `NaN`, the rational model yields the junk value `0`;
either way no error is raised. -/
def sampleCov (xs ys : List ℚ) : ℚ :=
  (List.zipWith (fun a b => (a - colMean xs) * (b - colMean ys)) xs ys).sum /
    ((xs.length : ℚ) - 1)

/-- Embedding of the statistics pipeline of `PortfolioOptimizer.fetch_data`
(source lines 47-51): `returns = data.pct_change().dropna()`,
`mean_returns = returns.mean() * 252`, `cov_matrix = returns.cov() * 252`.
Total: the source performs no period-count check. -/
def fetch_data_stats (prices : List (List ℚ)) : List ℚ × List (List ℚ) :=
  let returns := dropna (pct_change prices)
  let cols := columns returns
  (cols.map (fun c => colMean c * 252),
   cols.map (fun ci => cols.map (fun cj => sampleCov ci cj * 252)))

/-- The per-period (daily) sample mean returns, before annualization. -/
def period_mean_returns (prices : List (List ℚ)) : List ℚ :=
  (columns (dropna (pct_change prices))).map colMean

/-- The per-period (daily) sample covariance matrix, before annualization. -/
def period_cov_matrix (prices : List (List ℚ)) : List (List ℚ) :=
  let cols := columns (dropna (pct_change prices))
  cols.map (fun ci => cols.map (fun cj => sampleCov ci cj))

/-- The frontier sampler's normalization (source line 179):
`weights /= np.sum(weights)`. -/
def normalizeW (xs : List ℚ) : List ℚ :=
  xs.map (fun x => x / xs.sum)

/-- Embedding of the sampling loop of `plot_efficient_frontier` (source lines
177-184): for each of `count` iterations, normalize the k-th random draw and
evaluate `portfolio_stats` on it, collecting one result triple per iteration. -/
noncomputable def frontier_samples (draws : ℕ → List ℚ) (count : ℕ)
    (mean_returns : List ℝ) (cov_matrix : List (List ℝ)) (risk_free_rate : ℝ) :
    List (ℝ × ℝ × ℝ) :=
  (List.range count).map (fun k =>
    portfolio_stats mean_returns cov_matrix risk_free_rate
      ((normalizeW (draws k)).map (fun q => (q : ℝ))))

/-- The scipy `OptimizeResult` fields the source touches or ignores:
the final iterate `x`, the convergence flag `success`, and the solver
`message`. -/
structure OptResult where
  x : List ℝ
  success : Bool
  message : String

/-- One strategy's entry in the result dictionary of `optimize`
(source lines 136-155): weights plus the three statistics. -/
structure StrategyResult where
  weights : List ℝ
  ret : ℝ
  vol : ℝ
  sharpe : ℝ

/-- Embedding of the result construction of `PortfolioOptimizer.optimize`
(source lines 128-158), given the two solver outputs: the strategies
`max_sharpe`, `min_volatility`, `equal_weight` in order.  The source reads
`opt_sharpe.x` and `opt_var.x` unconditionally; `success` and `message` are
never inspected. -/
noncomputable def optimize_results (mean_returns : List ℝ) (cov_matrix : List (List ℝ))
    (risk_free_rate : ℝ) (opt_sharpe opt_var : OptResult) (num_assets : ℕ) :
    StrategyResult × StrategyResult × StrategyResult :=
  let equal_weights := List.replicate num_assets (1 / (num_assets : ℝ))
  let sharpe_stats := portfolio_stats mean_returns cov_matrix risk_free_rate opt_sharpe.x
  let var_stats := portfolio_stats mean_returns cov_matrix risk_free_rate opt_var.x
  let equal_stats := portfolio_stats mean_returns cov_matrix risk_free_rate equal_weights
  (⟨opt_sharpe.x, sharpe_stats.1, sharpe_stats.2.1, sharpe_stats.2.2⟩,
   ⟨opt_var.x, var_stats.1, var_stats.2.1, var_stats.2.2⟩,
   ⟨equal_weights, equal_stats.1, equal_stats.2.1, equal_stats.2.2⟩)

/-- A solver run that reports failure, as scipy does when SLSQP hits its
iteration limit without converging. -/
def failed_run : OptResult :=
  ⟨[0.7, 0.3], false, "Iteration limit reached"⟩

/-- One call to `scipy.optimize.minimize` as the source assembles it
(source lines 99-126): the objective, the initial point, the box bounds, and
the single equality constraint function (`type eq`: feasible iff it is 0). -/
structure MinimizeCall where
  objective : List ℝ → ℝ
  init : List ℝ
  bounds : List (ℝ × ℝ)
  constraint : List ℝ → ℝ

/-- Embedding of the two solver invocations set up by
`PortfolioOptimizer.optimize` (source lines 99-126):
`constraints = [sum(x) - 1 == 0]`, `bounds = ((0,1),) * n`,
`init_guess = np.array([1/n] * n)`, objectives `negative_sharpe` and
`portfolio_volatility`.  No random quantity enters. -/
noncomputable def optimize_setup (mean_returns : List ℝ) (cov_matrix : List (List ℝ))
    (risk_free_rate : ℝ) (num_assets : ℕ) : MinimizeCall × MinimizeCall :=
  let constraints := fun (x : List ℝ) => x.sum - 1
  let bounds := List.replicate num_assets ((0 : ℝ), (1 : ℝ))
  let init_guess := List.replicate num_assets (1 / (num_assets : ℝ))
  (⟨negative_sharpe mean_returns cov_matrix risk_free_rate,
    init_guess, bounds, constraints⟩,
   ⟨portfolio_volatility mean_returns cov_matrix risk_free_rate,
    init_guess, bounds, constraints⟩)

/-- The mutable fields of a `PortfolioOptimizer` instance that the caching
logic touches: `self.returns`, `self.mean_returns`, `self.cov_matrix`,
all `None` after `__init__` (source lines 30-32). -/
structure OptimizerState where
  returns : Option (List (List ℚ))
  mean_returns : Option (List ℚ)
  cov_matrix : Option (List (List ℚ))

/-- Effect of `fetch_data` on the instance state (source lines 47-51), with
the downloaded price table supplied as an argument (the download itself is
the external collaborator). -/
def fetch_data_update (prices : List (List ℚ)) (_s : OptimizerState) : OptimizerState :=
  ⟨some (dropna (pct_change prices)),
   some (fetch_data_stats prices).1,
   some (fetch_data_stats prices).2⟩

/-- The guard both `optimize` (source lines 94-95) and
`plot_efficient_frontier` (source lines 167-168) run first:
`if self.returns is None: self.fetch_data()`. -/
def ensure_data (prices : List (List ℚ)) (s : OptimizerState) : OptimizerState :=
  if s.returns = none then fetch_data_update prices s else s

/-- The freshly constructed instance state (source lines 30-32). -/
def init_state : OptimizerState := ⟨none, none, none⟩

/-- Concrete two-asset, two-day price table used by witnesses. -/
def prices_ex : List (List ℚ) := [[100, 100], [110, 90]]

theorem dotL_comm (xs ys : List ℝ) : dotL xs ys = dotL ys xs := by
  unfold dotL
  rw [List.zipWith_comm_of_comm]
  exact fun a b => mul_comm a b

theorem dotL_matvec_eq_quadForm (cov : List (List ℝ)) (w : List ℝ) :
    dotL w (matvec cov w) = quadForm cov w := by
  unfold dotL matvec quadForm
  rw [List.zipWith_map_right]

theorem dotL_replicate_zero_left (k : ℕ) (xs : List ℝ) :
    dotL (List.replicate k 0) xs = 0 := by
  unfold dotL
  induction k generalizing xs with
  | zero => simp
  | succ n ih =>
    cases xs with
    | nil => simp
    | cons y ys => simpa [List.replicate_succ] using ih ys

theorem dotL_replicate_zero_right (xs : List ℝ) (k : ℕ) :
    dotL xs (List.replicate k 0) = 0 := by
  rw [dotL_comm]; exact dotL_replicate_zero_left k xs

theorem dotL_any_e1 (xs : List ℝ) (k : ℕ) :
    dotL xs (1 :: List.replicate k 0) = xs.headI := by
  cases xs with
  | nil =>
    show (0 : ℝ) = ([] : List ℝ).headI
    rfl
  | cons a as =>
    have h := dotL_replicate_zero_right as k
    unfold dotL at h ⊢
    simp [h]

theorem dotL_e1_any (k : ℕ) (ys : List ℝ) :
    dotL (1 :: List.replicate k 0) ys = ys.headI := by
  rw [dotL_comm]; exact dotL_any_e1 ys k

theorem matvec_e1 (cov : List (List ℝ)) (k : ℕ) :
    matvec cov (1 :: List.replicate k 0) = cov.map List.headI := by
  unfold matvec
  exact List.map_congr_left fun r _ => dotL_any_e1 r k

/-- C1: for every weight vector `w` — with no hypothesis that its entries
sum to 1, and no validation or renormalization anywhere — `portfolio_stats`
returns exactly `(w · meanReturns, sqrt(w^T · covMatrix · w),
(return - riskFreeRate) / volatility)`, i.e. it agrees with the spec's
`PortfolioMetrics.evaluate` computed from the raw dot products. -/
theorem portfolio_stats_raw_dot_products (mean_returns : List ℝ)
    (cov_matrix : List (List ℝ)) (risk_free_rate : ℝ) (w : List ℝ) :
    portfolio_stats mean_returns cov_matrix risk_free_rate w =
      (dotL w mean_returns,
       Real.sqrt (quadForm cov_matrix w),
       (dotL w mean_returns - risk_free_rate) / Real.sqrt (quadForm cov_matrix w)) ∧
    portfolio_stats mean_returns cov_matrix risk_free_rate w =
      evaluate_metrics w mean_returns cov_matrix risk_free_rate := by
  unfold portfolio_stats evaluate_metrics
  rw [dotL_comm mean_returns w, dotL_matvec_eq_quadForm]
  exact ⟨rfl, rfl⟩

/-- C10: `negative_sharpe` is exactly the negation of the Sharpe component of
`portfolio_stats`, and `portfolio_volatility` is exactly its volatility
component; consequently, pointwise, ordering by `negative_sharpe` is the
reverse of ordering by the reported Sharpe ratio (so minimizing it maximizes
Sharpe), and ordering by `portfolio_volatility` coincides with ordering by the
reported volatility (so minimizing it minimizes the reported volatility). -/
theorem objectives_match_portfolio_stats (mean_returns : List ℝ)
    (cov_matrix : List (List ℝ)) (risk_free_rate : ℝ) :
    (∀ w, negative_sharpe mean_returns cov_matrix risk_free_rate w =
       -(portfolio_stats mean_returns cov_matrix risk_free_rate w).2.2) ∧
    (∀ w, portfolio_volatility mean_returns cov_matrix risk_free_rate w =
       (portfolio_stats mean_returns cov_matrix risk_free_rate w).2.1) ∧
    (∀ w v, negative_sharpe mean_returns cov_matrix risk_free_rate w ≤
        negative_sharpe mean_returns cov_matrix risk_free_rate v ↔
        (portfolio_stats mean_returns cov_matrix risk_free_rate v).2.2 ≤
        (portfolio_stats mean_returns cov_matrix risk_free_rate w).2.2) ∧
    (∀ w v, portfolio_volatility mean_returns cov_matrix risk_free_rate w ≤
        portfolio_volatility mean_returns cov_matrix risk_free_rate v ↔
        (portfolio_stats mean_returns cov_matrix risk_free_rate w).2.1 ≤
        (portfolio_stats mean_returns cov_matrix risk_free_rate v).2.1) := by
  refine ⟨fun w => rfl, fun w => rfl, fun w v => ?_, fun w v => Iff.rfl⟩
  unfold negative_sharpe
  exact neg_le_neg_iff

/-- C7: evaluating `portfolio_stats` at the weight vector `[1, 0, ..., 0]`
(all weight on the first asset) yields exactly that asset's mean return as the
portfolio return, exactly the square root of the covariance matrix's first
diagonal entry (the asset's standard deviation) as the volatility, and the
corresponding Sharpe ratio. -/
theorem portfolio_stats_single_asset (m : ℝ) (ms : List ℝ)
    (cov_matrix : List (List ℝ)) (risk_free_rate : ℝ) :
    portfolio_stats (m :: ms) cov_matrix risk_free_rate (e1 (m :: ms).length) =
      (m, Real.sqrt cov_matrix.headI.headI,
       (m - risk_free_rate) / Real.sqrt cov_matrix.headI.headI) := by
  unfold portfolio_stats
  simp only [List.length_cons, e1]
  rw [dotL_any_e1 (m :: ms) ms.length, matvec_e1 cov_matrix ms.length,
    dotL_e1_any ms.length (cov_matrix.map List.headI)]
  cases cov_matrix with
  | nil => rfl
  | cons r rs => rfl

/-- C3: at the spec's own test input — weights `[1, 0]` on a first asset of
variance 0 — `portfolio_stats` raises nothing: it returns the triple whose
volatility is exactly 0 and whose Sharpe ratio is the division of the excess
return by that zero volatility (IEEE infinity in the source's floats),
rather than failing with `DegenerateVolatilityError`. -/
theorem portfolio_stats_zero_volatility_total :
    portfolio_stats [0.1, 0.05] [[0, 0], [0, 0.01]] 0.02 [1, 0] =
      (0.1, 0, (0.1 - 0.02) / 0) := by
  unfold portfolio_stats matvec dotL
  norm_num

/-- C2: `optimize` never inspects the solver's convergence status: on a run
whose solver result reports `success = false` ("Iteration limit reached"),
the returned `max_sharpe` strategy carries exactly that failed last iterate
as its weights, and the whole result construction is invariant under changing
the `success` flag and `message` — no `OptimizationFailedError` exists. -/
theorem optimize_returns_unconverged_iterate :
    failed_run.success = false ∧
    (optimize_results [0.1, 0.05] [[0.04, 0], [0, 0.01]] 0.02
        failed_run failed_run 2).1.weights = failed_run.x ∧
    (∀ (x : List ℝ) (b₁ b₂ : Bool) (m₁ m₂ : String) (mr : List ℝ)
      (cm : List (List ℝ)) (rf : ℝ) (ov : OptResult) (n : ℕ),
      optimize_results mr cm rf ⟨x, b₁, m₁⟩ ov n =
        optimize_results mr cm rf ⟨x, b₂, m₂⟩ ov n) :=
  ⟨rfl, rfl, fun _ _ _ _ _ _ _ _ _ _ => rfl⟩

/-- C4: on a price table whose return series has exactly 1 period after
`dropna`, the statistics pipeline raises nothing: it returns a mean vector
and a covariance matrix computed with the zero denominator `n - 1 = 0`
(NaN entries in the source's floats, the junk value 0 in the rational model)
instead of failing with `InsufficientDataError`. -/
theorem fetch_data_stats_one_period_total :
    dropna (pct_change prices_ex) = [[1 / 10, -1 / 10]] ∧
    (dropna (pct_change prices_ex)).length = 1 ∧
    fetch_data_stats prices_ex = ([126 / 5, -126 / 5], [[0, 0], [0, 0]]) := by
  refine ⟨?_, ?_, ?_⟩ <;>
    norm_num [prices_ex, fetch_data_stats, dropna, pct_change, seqOption,
      List.filterMap_cons, columns, colMean, sampleCov, List.range_succ]

/-- C6: the statistics pipeline annualizes by the fixed constant 252 — its
mean vector is the per-period sample mean vector scaled entrywise by 252 and
its covariance matrix is the per-period sample covariance matrix scaled
entrywise by 252, for every input series; no periodicity parameter exists. -/
theorem annualization_times_252 (prices : List (List ℚ)) :
    (fetch_data_stats prices).1 = (period_mean_returns prices).map (fun m => m * 252) ∧
    (fetch_data_stats prices).2 =
      (period_cov_matrix prices).map (fun row => row.map (fun c => c * 252)) := by
  unfold fetch_data_stats period_mean_returns period_cov_matrix
  simp [List.map_map, Function.comp]

/-- C8: both solver invocations assembled by `optimize` start from the
deterministic uniform initial point `[1/n, ..., 1/n]`, share the box bounds
`[0, 1]` per asset, and share the single equality constraint whose root set
is exactly the weight vectors summing to 1; the first minimizes
`negative_sharpe`, the second `portfolio_volatility`, and nothing random
enters the setup. -/
theorem optimize_setup_deterministic (mr : List ℝ) (cm : List (List ℝ))
    (rf : ℝ) (n : ℕ) :
    (optimize_setup mr cm rf n).1.init = List.replicate n (1 / (n : ℝ)) ∧
    (optimize_setup mr cm rf n).2.init = (optimize_setup mr cm rf n).1.init ∧
    (optimize_setup mr cm rf n).1.bounds = List.replicate n (0, 1) ∧
    (optimize_setup mr cm rf n).2.bounds = (optimize_setup mr cm rf n).1.bounds ∧
    (∀ x, (optimize_setup mr cm rf n).1.constraint x = 0 ↔ x.sum = 1) ∧
    (∀ x, (optimize_setup mr cm rf n).2.constraint x =
      (optimize_setup mr cm rf n).1.constraint x) ∧
    (optimize_setup mr cm rf n).1.objective = negative_sharpe mr cm rf ∧
    (optimize_setup mr cm rf n).2.objective = portfolio_volatility mr cm rf := by
  refine ⟨rfl, rfl, rfl, rfl, fun x => ?_, fun x => rfl, rfl, rfl⟩
  show x.sum - 1 = 0 ↔ x.sum = 1
  exact sub_eq_zero

/-- C9: the cached-statistics discipline of the instance state: when
`returns` is still `None` the guard computes and stores the statistics
(lazy initialization); when it is already set the guard is the identity
(no recomputation, no mutation); hence running the guard again after any
call leaves the state — and the statistics every later `optimize` or
frontier call reads — unchanged. -/
theorem return_statistics_cached (prices : List (List ℚ)) (s : OptimizerState) :
    (s.returns = none → ensure_data prices s = fetch_data_update prices s) ∧
    (s.returns ≠ none → ensure_data prices s = s) ∧
    ensure_data prices (ensure_data prices s) = ensure_data prices s := by
  unfold ensure_data
  by_cases h : s.returns = none <;>
    simp [h, fetch_data_update]

theorem return_statistics_cached_witness :
    ensure_data prices_ex init_state = fetch_data_update prices_ex init_state ∧
    ensure_data prices_ex (ensure_data prices_ex init_state) =
      ensure_data prices_ex init_state :=
  ⟨(return_statistics_cached prices_ex init_state).1 rfl,
   (return_statistics_cached prices_ex init_state).2.2⟩

/-- C5 counterexample: with a single asset, one draw in (0,1) normalizes to
the weight vector `[1]`, whose entry is not in `[0, 1)` — the claim's bound
`every entry in [0,1)` fails at `numAssets = 1`. -/
theorem frontier_weight_one_not_lt_one :
    normalizeW [(1 : ℚ) / 2] = [1] ∧
    ¬ (∀ y ∈ normalizeW [(1 : ℚ) / 2], y < 1) := by
  have h : normalizeW [(1 : ℚ) / 2] = [1] := by norm_num [normalizeW]
  refine ⟨h, fun hall => ?_⟩
  have h1 := hall 1 (by rw [h]; exact List.mem_singleton_self 1)
  exact absurd h1 (lt_irrefl 1)

/-- C5 amended: normalizing a nonempty vector of draws from (0,1) by its sum
yields weights summing to exactly 1, each in (0, 1]; when there are at least
2 assets every weight is moreover strictly below 1; and the sampling loop
produces exactly `count` evaluated results, with no rejection. -/
theorem frontier_normalized_weights (xs : List ℚ) (hne : xs ≠ [])
    (hx : ∀ x ∈ xs, 0 < x ∧ x < 1) :
    (normalizeW xs).sum = 1 ∧
    (∀ y ∈ normalizeW xs, 0 < y ∧ y ≤ 1) ∧
    (2 ≤ xs.length → ∀ y ∈ normalizeW xs, y < 1) ∧
    (∀ (draws : ℕ → List ℚ) (count : ℕ) (mr : List ℝ) (cm : List (List ℝ))
      (rf : ℝ), (frontier_samples draws count mr cm rf).length = count) := by
  have hs : 0 < xs.sum := List.sum_pos xs (fun a ha => (hx a ha).1) hne
  have hdiv : ∀ (l : List ℚ), (l.map (fun x => x / xs.sum)).sum = l.sum / xs.sum := by
    intro l
    induction l with
    | nil => simp
    | cons a as ih => simp [ih, add_div]
  refine ⟨?_, ?_, ?_, ?_⟩
  · rw [normalizeW, hdiv, div_self hs.ne']
  · intro y hy
    obtain ⟨x, hxmem, rfl⟩ := List.mem_map.mp hy
    exact ⟨div_pos (hx x hxmem).1 hs,
      (div_le_one hs).mpr (List.single_le_sum (fun a ha => (hx a ha).1.le) x hxmem)⟩
  · intro hlen y hy
    obtain ⟨x, hxmem, rfl⟩ := List.mem_map.mp hy
    have hperm : xs.sum = x + (xs.erase x).sum :=
      (List.perm_cons_erase hxmem).sum_eq
    have herase_ne : xs.erase x ≠ [] := by
      have hlen' : (xs.erase x).length = xs.length - 1 :=
        List.length_erase_of_mem hxmem
      intro hnil
      rw [hnil] at hlen'
      simp at hlen'
      omega
    have herase_pos : 0 < (xs.erase x).sum :=
      List.sum_pos _ (fun a ha => (hx a (List.mem_of_mem_erase ha)).1) herase_ne
    have hx_lt : x < xs.sum := by
      rw [hperm]
      linarith
    exact (div_lt_one hs).mpr hx_lt
  · intro draws count mr cm rf
    simp [frontier_samples]

theorem frontier_normalized_weights_witness :
    (([(1 : ℚ) / 2, 1 / 4] : List ℚ) ≠ [] ∧
      ∀ x ∈ [(1 : ℚ) / 2, 1 / 4], 0 < x ∧ x < 1) ∧
    (normalizeW [(1 : ℚ) / 2, 1 / 4]).sum = 1 ∧
    (∀ y ∈ normalizeW [(1 : ℚ) / 2, 1 / 4], 0 < y ∧ y ≤ 1) ∧
    (2 ≤ ([(1 : ℚ) / 2, 1 / 4] : List ℚ).length →
      ∀ y ∈ normalizeW [(1 : ℚ) / 2, 1 / 4], y < 1) ∧
    (∀ (draws : ℕ → List ℚ) (count : ℕ) (mr : List ℝ) (cm : List (List ℝ))
      (rf : ℝ), (frontier_samples draws count mr cm rf).length = count) :=
  ⟨⟨by simp, by norm_num⟩,
   frontier_normalized_weights [(1 : ℚ) / 2, 1 / 4] (by simp) (by norm_num)⟩

end PortfolioOpt
